import Mathlib

/-!
Verification development for the EventHub QR-code registration-and-check-in
subsystem.  The definitions below shallowly embed:

* the frontend scan-validation entry point `validateQRCode` from the
  EventContext provider (values are modelled by a small JSON value type, the
  backend reply and the network by an explicit outcome type, and a JavaScript
  exception by the `Except` error branch that the `try`/`catch` wrapper turns
  back into a structured value);
* the backend Express route handlers for `POST /api/events/:eventId/register`
  and `POST /api/events/:eventId/unregister`, together with the Mongoose
  collections they touch (users, events, registrations), as explicit state
  passing over a `DB` record;
* a fine-grained, suspension-point-level version of the register handler
  (`regStep`), used to analyse interleavings of two concurrent register calls.

MongoDB ObjectIds are modelled as natural numbers drawn from a fresh-id
supply (`DB.nextId`); distinct `new ObjectId()` calls yield distinct ids.
The external `qrcode` library's `toDataURL` is kept as an arbitrary function
parameter `enc : String -> String`, since only the string passed to it (the
JSON payload) matters to the properties under study.
-/

namespace EventHub

/-! ## JSON value model (frontend side) -/

/-- A JavaScript/JSON value, as needed by the EventContext code paths:
`null`, booleans, numbers, strings and objects with named fields. -/
inductive JVal where
  | jnull : JVal
  | jbool (b : Bool) : JVal
  | jnum (n : Int) : JVal
  | jstr (s : String) : JVal
  | jobj (fields : List (String × JVal)) : JVal

/-- Property access `v[k]`: `none` models JavaScript `undefined`.
Field access on a primitive yields `undefined`; the null case is handled
separately by the callers that can throw. -/
def getField : JVal → String → Option JVal
  | .jobj fields, k => (fields.find? (fun f => f.1 == k)).map (fun f => f.2)
  | _, _ => none

/-- JavaScript truthiness of a value. -/
def jsTruthy : JVal → Bool
  | .jnull => false
  | .jbool b => b
  | .jnum n => n != 0
  | .jstr s => s != ""
  | .jobj _ => true

/-- The result of `res.text()` followed by `JSON.parse` inside
`parseResponse`: empty text, a successfully parsed JSON value, or text that
`JSON.parse` rejects. -/
inductive Body where
  | empty : Body
  | json (j : JVal) : Body
  | malformed (raw : String) : Body

/-- `parseResponse` from the EventContext provider: empty text gives `null`,
parsed JSON is returned as is, and a parse failure yields the object
`\x7b _rawText: text \x7d`. -/
def parseResponse : Body → JVal
  | .empty => .jnull
  | .json j => j
  | .malformed raw => .jobj [("_rawText", .jstr raw)]

/-- Outcome of the `fetch` call to `/api/qr/validate`: a rejected promise
(network failure) or a response with an `ok` flag and a body. -/
inductive FetchOutcome where
  | networkError : FetchOutcome
  | response (ok : Bool) (body : Body) : FetchOutcome

/-- The fallback reason string used when the backend supplies none. -/
def qrValidationFailed : JVal := .jstr "QR validation failed"

/-- The structured value produced by the `catch` block of `validateQRCode`. -/
def networkErrorResult : JVal :=
  .jobj [("valid", .jbool false), ("reason", .jstr "Network error during QR validation")]

/-- `data?.reason || 'QR validation failed'`: the reason field when truthy,
else the fallback string.  Optional chaining on `null` or on a primitive
yields `undefined`, hence the fallback. -/
def reasonOrDefault (data : JVal) : JVal :=
  match getField data "reason" with
  | some v => if jsTruthy v then v else qrValidationFailed
  | none => qrValidationFailed

/-- The `try` block of `validateQRCode`.  The `.error` branch marks a thrown
JavaScript exception: the rejected `fetch` promise, or the `TypeError` raised
by `data.valid` when `data` is `null`.  On a non-ok status the function
returns a structured rejection; on an ok status it returns the parsed body
as is (the `fetchRegistrations()` side effect never throws and does not
change the returned value). -/
def validateQRCodeBody : FetchOutcome → Except Unit JVal
  | .networkError => .error ()
  | .response ok body =>
    let data := parseResponse body
    if ok = false then
      .ok (.jobj [("valid", .jbool false), ("reason", reasonOrDefault data)])
    else
      match data with
      | .jnull => .error ()
      | d => .ok d

/-- `validateQRCode` as seen by its caller: the `try` block with its
`catch` converting any thrown exception into the structured
`networkErrorResult`.  Totality of this function is the embedding of
"never throws to its caller". -/
def validateQRCode (o : FetchOutcome) : JVal :=
  match validateQRCodeBody o with
  | .ok v => v
  | .error _ => networkErrorResult

/-! ## Backend data model (server route handlers) -/

/-- A document of the `User` collection, restricted to the fields the
register handler reads (`user.email`, `user.name`). -/
structure User where
  id : Nat
  name : String
  email : String
deriving DecidableEq

/-- A document of the `Event` collection, restricted to the fields the
register and unregister handlers read and write. -/
structure Event where
  id : Nat
  title : String
  maxParticipants : Nat
  currentParticipants : Nat
deriving DecidableEq

/-- The `status` enum of the Registration schema. -/
inductive RegStatus where
  | registered
  | attended
  | absent
deriving DecidableEq

/-- A document of the `Registration` collection: `_id`, the two references,
the status (default `registered`) and the stored `qrCode` string. -/
structure Registration where
  id : Nat
  userId : Nat
  eventId : Nat
  status : RegStatus
  qrCode : String
deriving DecidableEq

/-- The backing store plus the process-local ObjectId supply and clock.
`nextId` models `new mongoose.Types.ObjectId()`: each generation consumes
one fresh number.  `clock` models `new Date()`, unchanged by the handlers. -/
structure DB where
  users : List User
  events : List Event
  registrations : List Registration
  nextId : Nat
  clock : Nat
deriving DecidableEq

/-- `Registration.findOne(\x7b userId, eventId \x7d)`. -/
def findOneReg (db : DB) (u e : Nat) : Option Registration :=
  db.registrations.find? (fun r => r.userId == u && r.eventId == e)

/-- `Event.findById(eventId)`. -/
def findEvent (db : DB) (e : Nat) : Option Event :=
  db.events.find? (fun ev => ev.id == e)

/-- `User.findById(userId)`. -/
def findUser (db : DB) (u : Nat) : Option User :=
  db.users.find? (fun us => us.id == u)

/-- `event.save()`: write the in-memory document back over every stored
document carrying this id (Mongo ids are unique, so at most one). -/
def saveEvent (events : List Event) (e : Nat) (doc : Event) : List Event :=
  events.map (fun ev => if ev.id == e then doc else ev)

/-- `JSON.stringify` on a flat object whose values are all strings, which is
the exact shape of the `qrData` object built by the register handler. -/
def jsonStringify (fields : List (String × String)) : String :=
  "\x7b" ++ String.intercalate ","
    (fields.map (fun f => "\"" ++ f.1 ++ "\":\"" ++ f.2 ++ "\"")) ++ "\x7d"

/-- The `qrData` object built by the register handler, field for field and
in source order.  `freshId` is the `new mongoose.Types.ObjectId().toString()`
value; `clock` is `new Date().toISOString()`. -/
def qrData (freshId u e : Nat) (user : User) (event : Event) (clock : Nat) :
    List (String × String) :=
  [("registrationId", toString freshId),
   ("userId", toString u),
   ("eventId", toString e),
   ("userEmail", user.email),
   ("userName", user.name),
   ("eventTitle", event.title),
   ("registeredAt", toString clock)]

/-- Value of a field of a flat string object. -/
def fieldVal (fields : List (String × String)) (k : String) : Option String :=
  (fields.find? (fun f => f.1 == k)).map (fun f => f.2)

/-- Outcome of `POST /api/events/:eventId/register`, one constructor per
return statement of the handler. -/
inductive RegisterResult where
  | alreadyRegistered
  | eventNotFound
  | eventFull
  | userNotFound
  | ok (registration : Registration)
deriving DecidableEq

/-- Whether a register outcome is the success case. -/
def RegisterResult.isOk : RegisterResult → Bool
  | .ok _ => true
  | _ => false

/-- The registration document built and saved by the register handler: the
`qrData` payload takes the first fresh ObjectId (`db.nextId`), the saved
document's own `_id` is the second (`db.nextId + 1`), and the stored
`qrCode` string is the external encoder applied to the JSON payload. -/
def mintedReg (enc : String → String) (db : DB) (u e : Nat)
    (user : User) (event : Event) : Registration :=
  ⟨db.nextId + 1, u, e, .registered,
   enc (jsonStringify (qrData db.nextId u e user event db.clock))⟩

/-- Store state after the success path of the register handler:
`registration.save()` followed by
`event.currentParticipants += 1; event.save()`. -/
def registerSuccessDB (enc : String → String) (db : DB) (u e : Nat)
    (user : User) (event : Event) : DB :=
  { db with
    registrations := db.registrations ++ [mintedReg enc db u e user event],
    nextId := db.nextId + 2,
    events := saveEvent db.events e
      ({ event with currentParticipants := event.currentParticipants + 1 }) }

/-- The register handler, straight-line over the sequential store:
duplicate check, event lookup, capacity check (`>=`), user lookup, `qrData`
construction with a fresh ObjectId, QR encoding (the external `toDataURL`
is the parameter `enc`), registration save with its own fresh `_id`, then
`event.currentParticipants += 1; event.save()`. -/
def register (enc : String → String) (db : DB) (u e : Nat) :
    RegisterResult × DB :=
  match findOneReg db u e with
  | some _ => (.alreadyRegistered, db)
  | none =>
    match findEvent db e with
    | none => (.eventNotFound, db)
    | some event =>
      if event.maxParticipants ≤ event.currentParticipants then
        (.eventFull, db)
      else
        match findUser db u with
        | none => (.userNotFound, db)
        | some user =>
          (.ok (mintedReg enc db u e user event),
           registerSuccessDB enc db u e user event)

/-- `Registration.findOneAndDelete(pred)`: the first matching document and
the collection with that one document removed. -/
def findOneAndDelete (p : Registration → Bool) :
    List Registration → Option Registration × List Registration
  | [] => (none, [])
  | r :: rs =>
    if p r then (some r, rs)
    else
      let rest := findOneAndDelete p rs
      (rest.1, r :: rest.2)

/-- Outcome of `POST /api/events/:eventId/unregister`. -/
inductive UnregisterResult where
  | notFound
  | success
deriving DecidableEq

/-- The unregister handler: `findOneAndDelete` on the `(userId, eventId)`
pair, then — if the event exists and its counter is positive —
`event.currentParticipants -= 1; event.save()`. -/
def unregister (db : DB) (u e : Nat) : UnregisterResult × DB :=
  let del := findOneAndDelete (fun r => r.userId == u && r.eventId == e) db.registrations
  match del.1 with
  | none => (.notFound, db)
  | some _ =>
    let db1 := { db with registrations := del.2 }
    match findEvent db e with
    | some event =>
      if 0 < event.currentParticipants then
        let saved := saveEvent db1.events e
          ({ event with currentParticipants := event.currentParticipants - 1 })
        (.success, { db1 with events := saved })
      else (.success, db1)
    | none => (.success, db1)

/-- One API call against the store. -/
inductive Op where
  | reg (u e : Nat)
  | unreg (u e : Nat)

/-- Effect of one call on the store. -/
def applyOp (enc : String → String) (db : DB) : Op → DB
  | .reg u e => (register enc db u e).2
  | .unreg u e => (unregister db u e).2

/-- Effect of a sequence of calls on the store. -/
def runOps (enc : String → String) (db : DB) : List Op → DB
  | [] => db
  | op :: ops => runOps enc (applyOp enc db op) ops

/-- The registration collection after the `findOneAndDelete` of the
unregister handler. -/
def delReg (db : DB) (u e : Nat) : List Registration :=
  (findOneAndDelete (fun r => r.userId == u && r.eventId == e) db.registrations).2

/-! ## Fine-grained interleaving model of the register handler

Each constructor of `RegPhase` is a point where the handler is suspended on
an `await` of a store operation; `regStep` performs the next store access.
The capacity check and the event read share one step because no `await`
separates them in the source; `QRCode.toDataURL` and the ObjectId
generations touch no shared store and are merged into the save step. -/

/-- Where a register call stands between its store accesses. -/
inductive RegPhase where
  | start
  | dupChecked
  | gotEvent (ev : Event)
  | gotUser (ev : Event) (us : User)
  | savedReg (ev : Event) (reg : Registration)
  | finished (res : RegisterResult)
deriving DecidableEq

/-- One store access of the register handler.  The final step writes back
the event document read earlier (`event.currentParticipants += 1;
event.save()`), exactly as the source does: the written counter value comes
from the snapshot, not from the store's current state. -/
def regStep (enc : String → String) (u e : Nat) :
    RegPhase → DB → RegPhase × DB
  | .start, db =>
    match findOneReg db u e with
    | some _ => (.finished .alreadyRegistered, db)
    | none => (.dupChecked, db)
  | .dupChecked, db =>
    match findEvent db e with
    | none => (.finished .eventNotFound, db)
    | some ev =>
      if ev.maxParticipants ≤ ev.currentParticipants then
        (.finished .eventFull, db)
      else (.gotEvent ev, db)
  | .gotEvent ev, db =>
    match findUser db u with
    | none => (.finished .userNotFound, db)
    | some us => (.gotUser ev us, db)
  | .gotUser ev us, db =>
    (.savedReg ev (mintedReg enc db u e us ev),
     { db with
       registrations := db.registrations ++ [mintedReg enc db u e us ev],
       nextId := db.nextId + 2 })
  | .savedReg ev reg, db =>
    let saved := saveEvent db.events e
      ({ ev with currentParticipants := ev.currentParticipants + 1 })
    (.finished (.ok reg), { db with events := saved })
  | .finished r, db => (.finished r, db)

/-- Joint state of two in-flight register calls A and B over one store. -/
structure RaceState where
  pa : RegPhase
  pb : RegPhase
  db : DB
deriving DecidableEq

/-- Let the chosen call perform its next store access. -/
def raceStep (enc : String → String) (ua ea ub eb : Nat)
    (s : RaceState) : Bool → RaceState
  | true =>
    let sa := regStep enc ua ea s.pa s.db
    ⟨sa.1, s.pb, sa.2⟩
  | false =>
    let sb := regStep enc ub eb s.pb s.db
    ⟨s.pa, sb.1, sb.2⟩

/-- Run two register calls under a given interleaving (`true` steps A). -/
def runRace (enc : String → String) (ua ea ub eb : Nat) (db : DB)
    (sched : List Bool) : RaceState :=
  sched.foldl (raceStep enc ua ea ub eb) ⟨.start, .start, db⟩

/-- Whether an in-flight call has finished with a success result. -/
def phaseOk : RegPhase → Bool
  | .finished (.ok _) => true
  | _ => false

/-- The strictly alternating interleaving of the two calls' five store
accesses: both calls pass their checks before either write lands. -/
def alternate10 : List Bool :=
  [true, false, true, false, true, false, true, false, true, false]

/-! ## Invariants -/

/-- Number of registrations for one `(userId, eventId)` pair. -/
def pairCount (regs : List Registration) (u e : Nat) : Nat :=
  regs.countP (fun r => r.userId == u && r.eventId == e)

/-- Number of registrations for one event (the live registrations). -/
def regCount (regs : List Registration) (e : Nat) : Nat :=
  regs.countP (fun r => r.eventId == e)

/-- Uniqueness invariant: at most one registration per pair. -/
def atMostOnePair (db : DB) : Prop :=
  ∀ u e, pairCount db.registrations u e ≤ 1

/-- Capacity invariant: no stored event exceeds its maximum. -/
def capOK (db : DB) : Prop :=
  ∀ ev ∈ db.events, ev.currentParticipants ≤ ev.maxParticipants

/-- Counter consistency: every stored event's counter equals the number of
live registrations referencing it. -/
def consistent (db : DB) : Prop :=
  ∀ ev ∈ db.events, ev.currentParticipants = regCount db.registrations ev.id

/-! ## Concrete fixtures -/

/-- The identity encoder, standing in for `QRCode.toDataURL` in concrete
runs (only the encoded payload matters to the claims). -/
def idEnc : String → String := fun s => s

/-- Sample user 1. -/
def us1 : User := ⟨1, "Alice", "alice@college.edu"⟩

/-- Sample user 2. -/
def us2 : User := ⟨2, "Bob", "bob@college.edu"⟩

/-- Sample event with a single slot. -/
def ev3 : Event := ⟨3, "TechTalk", 1, 0⟩

/-- Sample event with room. -/
def ev4 : Event := ⟨4, "Hackathon", 5, 0⟩

/-- Sample event that is already full. -/
def ev5 : Event := ⟨5, "FullHouse", 5, 5⟩

/-- Sample store: two users, three events, no registrations, fresh ids
from 10. -/
def db0 : DB := ⟨[us1, us2], [ev3, ev4, ev5], [], 10, 0⟩

/-! ## Equation lemmas for the handlers -/

theorem register_already {enc : String → String} {db : DB} {u e : Nat}
    {r : Registration} (h : findOneReg db u e = some r) :
    register enc db u e = (.alreadyRegistered, db) := by
  unfold register
  rw [h]

theorem register_noEvent {enc : String → String} {db : DB} {u e : Nat}
    (h1 : findOneReg db u e = none) (h2 : findEvent db e = none) :
    register enc db u e = (.eventNotFound, db) := by
  unfold register
  rw [h1, h2]

theorem register_isFull {enc : String → String} {db : DB} {u e : Nat}
    {ev : Event} (h1 : findOneReg db u e = none) (h2 : findEvent db e = some ev)
    (h3 : ev.maxParticipants ≤ ev.currentParticipants) :
    register enc db u e = (.eventFull, db) := by
  unfold register
  rw [h1]
  dsimp only
  rw [h2]
  dsimp only
  rw [if_pos h3]

theorem register_noUser {enc : String → String} {db : DB} {u e : Nat}
    {ev : Event} (h1 : findOneReg db u e = none) (h2 : findEvent db e = some ev)
    (h3 : ¬ ev.maxParticipants ≤ ev.currentParticipants)
    (h4 : findUser db u = none) :
    register enc db u e = (.userNotFound, db) := by
  unfold register
  rw [h1]
  dsimp only
  rw [h2]
  dsimp only
  rw [if_neg h3, h4]

theorem register_success {enc : String → String} {db : DB} {u e : Nat}
    {ev : Event} {us : User}
    (h1 : findOneReg db u e = none) (h2 : findEvent db e = some ev)
    (h3 : ¬ ev.maxParticipants ≤ ev.currentParticipants)
    (h4 : findUser db u = some us) :
    register enc db u e = (.ok (mintedReg enc db u e us ev),
      registerSuccessDB enc db u e us ev) := by
  unfold register
  rw [h1]
  dsimp only
  rw [h2]
  dsimp only
  rw [if_neg h3, h4]

/-! ## List-level lemmas -/

theorem fod_fst (p : Registration → Bool) (l : List Registration) :
    (findOneAndDelete p l).1 = l.find? p := by
  induction l with
  | nil => rfl
  | cons r rs ih =>
    by_cases h : p r
    · simp [findOneAndDelete, List.find?, h]
    · simp [findOneAndDelete, List.find?, h, ih]

theorem fod_snd_of_none {p : Registration → Bool} {l : List Registration}
    (h : (findOneAndDelete p l).1 = none) : (findOneAndDelete p l).2 = l := by
  induction l with
  | nil => rfl
  | cons r rs ih =>
    by_cases hp : p r
    · simp [findOneAndDelete, hp] at h
    · simp [findOneAndDelete, hp] at h ⊢
      exact ih h

theorem fod_pred {p : Registration → Bool} {l : List Registration}
    {r : Registration} (h : (findOneAndDelete p l).1 = some r) : p r = true := by
  rw [fod_fst] at h
  exact List.find?_some h

theorem fod_countP (q : Registration → Bool) {p : Registration → Bool}
    {l : List Registration} {r : Registration}
    (h : (findOneAndDelete p l).1 = some r) :
    l.countP q = (findOneAndDelete p l).2.countP q + (if q r then 1 else 0) := by
  induction l with
  | nil => simp [findOneAndDelete] at h
  | cons a as ih =>
    simp only [findOneAndDelete] at h ⊢
    by_cases hp : p a
    · rw [if_pos hp] at h ⊢
      dsimp only at h ⊢
      cases h
      simp [List.countP_cons]
    · rw [if_neg hp] at h ⊢
      dsimp only at h ⊢
      rw [List.countP_cons, List.countP_cons, ih h]
      omega

theorem mem_saveEvent {events : List Event} {e : Nat} {doc : Event}
    {x : Event} (h : x ∈ saveEvent events e doc) :
    x = doc ∨ (x ∈ events ∧ (x.id == e) = false) := by
  unfold saveEvent at h
  rcases List.mem_map.mp h with ⟨y, hy, hxy⟩
  by_cases hid : (y.id == e) = true
  · left
    rw [hid] at hxy
    simpa using hxy.symm
  · right
    simp only [hid, if_neg] at hxy
    simp only [Bool.not_eq_true] at hid
    rw [if_neg (by simp [hid])] at hxy
    subst hxy
    exact ⟨hy, hid⟩

theorem find?_saveEvent {events : List Event} {e : Nat} {doc ev : Event}
    (hdoc : (doc.id == e) = true)
    (h : events.find? (fun x => x.id == e) = some ev) :
    (saveEvent events e doc).find? (fun x => x.id == e) = some doc := by
  induction events with
  | nil => simp [List.find?] at h
  | cons a as ih =>
    by_cases ha : (a.id == e) = true
    · simp [saveEvent, List.find?, ha, hdoc]
    · rw [List.find?] at h
      simp only [ha] at h
      simp only [saveEvent, List.map, if_neg (by simp_all : ¬ (a.id == e) = true)]
      rw [List.find?]
      simp only [ha]
      exact ih h

/-! ## Equation lemmas for unregister -/

theorem findOneReg_eq_fod (db : DB) (u e : Nat) :
    (findOneAndDelete (fun r => r.userId == u && r.eventId == e)
      db.registrations).1 = findOneReg db u e :=
  fod_fst _ _

theorem unregister_notFound {db : DB} {u e : Nat}
    (h : findOneReg db u e = none) : unregister db u e = (.notFound, db) := by
  simp only [unregister]
  rw [findOneReg_eq_fod, h]

theorem unregister_success_dec {db : DB} {u e : Nat} {r : Registration}
    {ev : Event} (h : findOneReg db u e = some r)
    (h2 : findEvent db e = some ev) (h3 : 0 < ev.currentParticipants) :
    unregister db u e = (.success,
      { db with
        registrations := delReg db u e,
        events := saveEvent db.events e
          ({ ev with currentParticipants := ev.currentParticipants - 1 }) }) := by
  simp only [unregister]
  rw [findOneReg_eq_fod, h]
  dsimp only
  rw [h2]
  dsimp only
  rw [if_pos h3]
  rfl

theorem unregister_success_zero {db : DB} {u e : Nat} {r : Registration}
    {ev : Event} (h : findOneReg db u e = some r)
    (h2 : findEvent db e = some ev) (h3 : ¬ 0 < ev.currentParticipants) :
    unregister db u e = (.success, { db with registrations := delReg db u e }) := by
  simp only [unregister]
  rw [findOneReg_eq_fod, h]
  dsimp only
  rw [h2]
  dsimp only
  rw [if_neg h3]
  rfl

theorem unregister_success_noEvent {db : DB} {u e : Nat} {r : Registration}
    (h : findOneReg db u e = some r) (h2 : findEvent db e = none) :
    unregister db u e = (.success, { db with registrations := delReg db u e }) := by
  simp only [unregister]
  rw [findOneReg_eq_fod, h]
  dsimp only
  rw [h2]
  rfl

/-! ## Case-analysis lemmas -/

theorem register_cases (enc : String → String) (db : DB) (u e : Nat) :
    (register enc db u e).2 = db ∨
    ∃ us ev, findOneReg db u e = none ∧ findEvent db e = some ev ∧
      ¬ ev.maxParticipants ≤ ev.currentParticipants ∧ findUser db u = some us ∧
      (register enc db u e).2 = registerSuccessDB enc db u e us ev := by
  cases hfr : findOneReg db u e with
  | some r => left; rw [register_already hfr]
  | none =>
    cases hev : findEvent db e with
    | none => left; rw [register_noEvent hfr hev]
    | some ev =>
      by_cases hcap : ev.maxParticipants ≤ ev.currentParticipants
      · left; rw [register_isFull hfr hev hcap]
      · cases hus : findUser db u with
        | none => left; rw [register_noUser hfr hev hcap hus]
        | some us =>
          right
          exact ⟨us, ev, rfl, rfl, hcap, rfl, by rw [register_success hfr hev hcap hus]⟩

theorem unregister_cases (db : DB) (u e : Nat) :
    (unregister db u e).2 = db ∨
    ∃ r, findOneReg db u e = some r ∧
      ((unregister db u e).2 = { db with registrations := delReg db u e } ∨
       ∃ ev, findEvent db e = some ev ∧ 0 < ev.currentParticipants ∧
         (unregister db u e).2 =
           { db with
             registrations := delReg db u e,
             events := saveEvent db.events e
               ({ ev with currentParticipants := ev.currentParticipants - 1 }) }) := by
  cases hfr : findOneReg db u e with
  | none => left; rw [unregister_notFound hfr]
  | some r =>
    right
    refine ⟨r, rfl, ?_⟩
    cases hev : findEvent db e with
    | none => left; rw [unregister_success_noEvent hfr hev]
    | some ev =>
      by_cases hpos : 0 < ev.currentParticipants
      · right
        exact ⟨ev, rfl, hpos, by rw [unregister_success_dec hfr hev hpos]⟩
      · left; rw [unregister_success_zero hfr hev hpos]

/-! ## Invariant preservation -/

theorem capOK_register (enc : String → String) (db : DB) (u e : Nat)
    (h : capOK db) : capOK (register enc db u e).2 := by
  rcases register_cases enc db u e with heq | ⟨us, ev, hfr, hev, hcap, hus, heq⟩
  · rw [heq]; exact h
  · rw [heq]
    intro x hx
    dsimp only [registerSuccessDB] at hx
    rcases mem_saveEvent hx with rfl | ⟨hmem, _⟩
    · dsimp only
      omega
    · exact h x hmem

theorem capOK_unregister (db : DB) (u e : Nat) (h : capOK db) :
    capOK (unregister db u e).2 := by
  rcases unregister_cases db u e with heq | ⟨r, hfr, heq | ⟨ev, hev, hpos, heq⟩⟩
  · rw [heq]; exact h
  · rw [heq]; intro x hx; exact h x hx
  · rw [heq]
    intro x hx
    dsimp only at hx
    rcases mem_saveEvent hx with rfl | ⟨hmem, _⟩
    · have hm := h ev (List.mem_of_find?_eq_some hev)
      dsimp only
      omega
    · exact h x hmem

theorem atMostOnePair_register (enc : String → String) (db : DB) (u e : Nat)
    (h : atMostOnePair db) : atMostOnePair (register enc db u e).2 := by
  rcases register_cases enc db u e with heq | ⟨us, ev, hfr, hev, hcap, hus, heq⟩
  · rw [heq]; exact h
  · rw [heq]
    intro u' e'
    have hz : pairCount db.registrations u e = 0 := by
      rw [pairCount, List.countP_eq_zero]
      intro a ha
      exact List.find?_eq_none.mp hfr a ha
    have hle := h u' e'
    have hsplit : pairCount (db.registrations ++ [mintedReg enc db u e us ev]) u' e' =
        pairCount db.registrations u' e' + (if (u == u' && e == e') then 1 else 0) := by
      simp [pairCount, List.countP_append, List.countP_cons, mintedReg]
    show pairCount (db.registrations ++ [mintedReg enc db u e us ev]) u' e' ≤ 1
    rw [hsplit]
    by_cases hp : (u == u' && e == e') = true
    · rw [if_pos hp]
      simp only [Bool.and_eq_true, beq_iff_eq] at hp
      obtain ⟨h1, h2⟩ := hp
      subst h1
      subst h2
      omega
    · rw [if_neg hp]
      omega

theorem atMostOnePair_unregister (db : DB) (u e : Nat)
    (h : atMostOnePair db) : atMostOnePair (unregister db u e).2 := by
  rcases unregister_cases db u e with heq | ⟨r, hfr, hcase⟩
  · rw [heq]; exact h
  · have hfod : (findOneAndDelete (fun x => x.userId == u && x.eventId == e)
        db.registrations).1 = some r := by
      rw [findOneReg_eq_fod]; exact hfr
    have hkey : ∀ u' e', pairCount (delReg db u e) u' e' ≤
        pairCount db.registrations u' e' := by
      intro u' e'
      have hc := fod_countP (fun x => x.userId == u' && x.eventId == e') hfod
      simp only [pairCount, delReg]
      omega
    rcases hcase with heq | ⟨ev, hev, hpos, heq⟩
    · rw [heq]; intro u' e'; exact le_trans (hkey u' e') (h u' e')
    · rw [heq]; intro u' e'; exact le_trans (hkey u' e') (h u' e')

theorem consistent_register (enc : String → String) (db : DB) (u e : Nat)
    (h : consistent db) : consistent (register enc db u e).2 := by
  rcases register_cases enc db u e with heq | ⟨us, ev, hfr, hev, hcap, hus, heq⟩
  · rw [heq]; exact h
  · rw [heq]
    have hevid : ev.id = e := by simpa using List.find?_some hev
    have hevmem : ev ∈ db.events := List.mem_of_find?_eq_some hev
    intro x hx
    dsimp only [registerSuccessDB] at hx ⊢
    rcases mem_saveEvent hx with rfl | ⟨hmem, hne⟩
    · dsimp only
      have hc := h ev hevmem
      rw [hevid] at hc
      have hcount : regCount (db.registrations ++ [mintedReg enc db u e us ev]) ev.id =
          regCount db.registrations e + 1 := by
        simp [regCount, List.countP_append, List.countP_cons, mintedReg, hevid]
      rw [hcount]
      omega
    · have hxid : x.id ≠ e := by simpa using hne
      have hcount : regCount (db.registrations ++ [mintedReg enc db u e us ev]) x.id =
          regCount db.registrations x.id := by
        have hind : (e == x.id) = false := by
          simp [Ne.symm hxid]
        simp [regCount, List.countP_append, List.countP_cons, mintedReg, hind]
      rw [hcount]
      exact h x hmem

theorem consistent_unregister (db : DB) (u e : Nat) (h : consistent db) :
    consistent (unregister db u e).2 := by
  cases hfr : findOneReg db u e with
  | none => rw [unregister_notFound hfr]; exact h
  | some r =>
    have hfod : (findOneAndDelete (fun x => x.userId == u && x.eventId == e)
        db.registrations).1 = some r := by
      rw [findOneReg_eq_fod]; exact hfr
    have hpred := fod_pred hfod
    have hre : r.eventId = e := by
      simp only [Bool.and_eq_true, beq_iff_eq] at hpred
      exact hpred.2
    have hcnt : ∀ n, regCount db.registrations n =
        regCount (delReg db u e) n + (if r.eventId == n then 1 else 0) := by
      intro n
      have hc := fod_countP (fun x => x.eventId == n) hfod
      simpa [regCount, delReg] using hc
    cases hev : findEvent db e with
    | none =>
      rw [unregister_success_noEvent hfr hev]
      intro x hx
      dsimp only at hx ⊢
      have hxid : x.id ≠ e := by
        have hni := List.find?_eq_none.mp hev x hx
        simpa using hni
      have hind : (r.eventId == x.id) = false := by
        rw [hre]
        simp [Ne.symm hxid]
      have hn := hcnt x.id
      rw [hind] at hn
      simp only [if_neg Bool.false_ne_true, Nat.add_zero] at hn
      rw [h x hx, hn]
    | some ev =>
      have hevid : ev.id = e := by simpa using List.find?_some hev
      have hevmem : ev ∈ db.events := List.mem_of_find?_eq_some hev
      have hc := h ev hevmem
      rw [hevid] at hc
      have hre' : (r.eventId == e) = true := by simp [hre]
      have hcE := hcnt e
      rw [hre'] at hcE
      simp only [if_pos] at hcE
      have hpos : 0 < ev.currentParticipants := by omega
      rw [unregister_success_dec hfr hev hpos]
      intro x hx
      dsimp only at hx ⊢
      rcases mem_saveEvent hx with rfl | ⟨hmem, hne⟩
      · dsimp only
        rw [hevid]
        omega
      · have hxid : x.id ≠ e := by simpa using hne
        have hind : (r.eventId == x.id) = false := by
          rw [hre]
          simp [Ne.symm hxid]
        have hn := hcnt x.id
        rw [hind] at hn
        simp only [if_neg Bool.false_ne_true, Nat.add_zero] at hn
        rw [h x hmem, hn]

/-- Any property preserved by single register and unregister calls is
preserved by every sequence of calls. -/
theorem runOps_preserves {P : DB → Prop} (enc : String → String)
    (hre : ∀ db u e, P db → P (register enc db u e).2)
    (hun : ∀ db u e, P db → P (unregister db u e).2) :
    ∀ ops db, P db → P (runOps enc db ops) := by
  intro ops
  induction ops with
  | nil => intro db h; exact h
  | cons op ops ih =>
    intro db h
    cases op with
    | reg u e =>
      show P (runOps enc (applyOp enc db (.reg u e)) ops)
      exact ih _ (hre db u e h)
    | unreg u e =>
      show P (runOps enc (applyOp enc db (.unreg u e)) ops)
      exact ih _ (hun db u e h)

/-- Inversion of the register handler's success case: an `.ok` outcome can
only come from the final branch, with the given lookups and checks. -/
theorem register_ok_inv {enc : String → String} {db : DB} {u e : Nat}
    {reg : Registration} {db' : DB}
    (h : register enc db u e = (.ok reg, db')) :
    ∃ us ev, findOneReg db u e = none ∧ findEvent db e = some ev ∧
      ¬ ev.maxParticipants ≤ ev.currentParticipants ∧ findUser db u = some us ∧
      reg = mintedReg enc db u e us ev ∧
      db' = registerSuccessDB enc db u e us ev := by
  cases hfr : findOneReg db u e with
  | some r =>
    rw [register_already hfr] at h
    exact absurd h (by simp)
  | none =>
    cases hev : findEvent db e with
    | none =>
      rw [register_noEvent hfr hev] at h
      exact absurd h (by simp)
    | some ev =>
      by_cases hcap : ev.maxParticipants ≤ ev.currentParticipants
      · rw [register_isFull hfr hev hcap] at h
        exact absurd h (by simp)
      · cases hus : findUser db u with
        | none =>
          rw [register_noUser hfr hev hcap hus] at h
          exact absurd h (by simp)
        | some us =>
          rw [register_success hfr hev hcap hus] at h
          have h1 := congrArg Prod.fst h
          have h2 := congrArg Prod.snd h
          dsimp only at h1 h2
          injection h1 with h1
          exact ⟨us, ev, rfl, rfl, hcap, rfl, h1.symm, h2.symm⟩

/-! ## Claims -/

/-- C3: for every `(userId, eventId)` pair, at most one Registration exists
after any sequence of register (and unregister) calls, provided the pair
was not duplicated to begin with; and a register call finding an existing
Registration for the pair returns the AlreadyRegistered error and leaves
the store untouched. -/
theorem registration_uniqueness (enc : String → String) (db : DB)
    (h : atMostOnePair db) :
    (∀ ops, atMostOnePair (runOps enc db ops)) ∧
    (∀ u e r, findOneReg db u e = some r →
      register enc db u e = (.alreadyRegistered, db)) := by
  constructor
  · intro ops
    exact runOps_preserves enc (atMostOnePair_register enc)
      atMostOnePair_unregister ops db h
  · intro u e r hr
    exact register_already hr

/-- Witness for C3 at a concrete store: three register calls, two of them
for the same pair, leave every pair with at most one Registration, and the
duplicate call is rejected without a state change. -/
theorem registration_uniqueness_witness :
    atMostOnePair (runOps idEnc db0 [Op.reg 1 4, Op.reg 1 4, Op.reg 2 4]) ∧
    register idEnc (runOps idEnc db0 [Op.reg 1 4]) 1 4 =
      (.alreadyRegistered, runOps idEnc db0 [Op.reg 1 4]) :=
  ⟨(registration_uniqueness idEnc db0 (fun _ _ => Nat.zero_le 1)).1
      [Op.reg 1 4, Op.reg 1 4, Op.reg 2 4],
   (registration_uniqueness idEnc (runOps idEnc db0 [Op.reg 1 4])
      ((registration_uniqueness idEnc db0 (fun _ _ => Nat.zero_le 1)).1
        [Op.reg 1 4])).2 1 4 (mintedReg idEnc db0 1 4 us1 ev4) (by decide)⟩

/-- C4: `currentParticipants <= maxParticipants` is preserved by every
sequence of register and unregister calls; register refuses with EventFull
when the event is at (or beyond) capacity; and unregister never increases
the stored counter of the touched event. -/
theorem capacity_bound (enc : String → String) (db : DB) (h : capOK db) :
    (∀ ops, capOK (runOps enc db ops)) ∧
    (∀ u e ev, findOneReg db u e = none → findEvent db e = some ev →
      ev.maxParticipants ≤ ev.currentParticipants →
      register enc db u e = (.eventFull, db)) ∧
    (∀ u e ev ev', findEvent db e = some ev →
      findEvent (unregister db u e).2 e = some ev' →
      ev'.currentParticipants ≤ ev.currentParticipants) := by
  refine ⟨fun ops => runOps_preserves enc (capOK_register enc)
    capOK_unregister ops db h, ?_, ?_⟩
  · intro u e ev h1 h2 h3
    exact register_isFull h1 h2 h3
  · intro u e ev ev' hev hev'
    cases hfr : findOneReg db u e with
    | none =>
      rw [unregister_notFound hfr] at hev'
      rw [hev] at hev'
      injection hev' with h
      subst h
      exact le_refl _
    | some r =>
      by_cases hpos : 0 < ev.currentParticipants
      · rw [unregister_success_dec hfr hev hpos] at hev'
        have hdoc : (({ ev with currentParticipants :=
            ev.currentParticipants - 1 }).id == e) = true := by
          have := List.find?_some hev
          simpa using this
        have hsv := find?_saveEvent hdoc hev
        simp only [findEvent] at hev'
        rw [hsv] at hev'
        injection hev' with h
        subst h
        exact Nat.sub_le _ _
      · rw [unregister_success_zero hfr hev hpos] at hev'
        simp only [findEvent] at hev'
        rw [show db.events.find? (fun ev => ev.id == e) = some ev from hev] at hev'
        injection hev' with h
        subst h
        exact le_refl _

/-- Witness for C4 at a concrete store: the capacity invariant survives a
register/register/unregister sequence, the full event rejects a
registration, and unregistering lowers the touched counter. -/
theorem capacity_bound_witness :
    capOK (runOps idEnc db0 [Op.reg 1 3, Op.reg 2 3, Op.unreg 1 3]) ∧
    register idEnc db0 1 5 = (.eventFull, db0) ∧
    (⟨4, "Hackathon", 5, 0⟩ : Event).currentParticipants ≤
      (⟨4, "Hackathon", 5, 1⟩ : Event).currentParticipants :=
  ⟨(capacity_bound idEnc db0 (by unfold capOK; decide)).1
      [Op.reg 1 3, Op.reg 2 3, Op.unreg 1 3],
   (capacity_bound idEnc db0 (by unfold capOK; decide)).2.1 1 5 ev5 (by decide)
     (by decide) (by decide),
   (capacity_bound idEnc (register idEnc db0 1 4).2 (by unfold capOK; decide)).2.2
     1 4 ⟨4, "Hackathon", 5, 1⟩ ⟨4, "Hackathon", 5, 0⟩ (by decide) (by decide)⟩

/-- C5: starting from a consistent store, after any sequence of register
and unregister calls every stored event's `currentParticipants` equals the
number of live Registrations for that event. -/
theorem participant_counter_consistency (enc : String → String) (db : DB)
    (h : consistent db) : ∀ ops, consistent (runOps enc db ops) :=
  fun ops => runOps_preserves enc (consistent_register enc)
    consistent_unregister ops db h

/-- Witness for C5 at a concrete store and call sequence. -/
theorem participant_counter_consistency_witness :
    consistent (runOps idEnc ⟨[us1, us2], [ev3, ev4], [], 10, 0⟩
      [Op.reg 1 3, Op.reg 1 4, Op.reg 2 4, Op.unreg 1 4, Op.unreg 2 5]) :=
  participant_counter_consistency idEnc ⟨[us1, us2], [ev3, ev4], [], 10, 0⟩
    (by unfold consistent; decide)
    [Op.reg 1 3, Op.reg 1 4, Op.reg 2 4, Op.unreg 1 4, Op.unreg 2 5]

/-- C6: a register call for a not-yet-registered user against an event
whose counter equals its maximum returns the EventFull error and leaves the
store — registrations and counter included — unchanged. -/
theorem register_full_event (enc : String → String) (db : DB) (u e : Nat)
    (ev : Event) (h1 : findOneReg db u e = none)
    (h2 : findEvent db e = some ev)
    (h3 : ev.currentParticipants = ev.maxParticipants) :
    register enc db u e = (.eventFull, db) :=
  register_isFull h1 h2 (le_of_eq h3.symm)

/-- Witness for C6: the event with `currentParticipants = maxParticipants
= 5` rejects a fresh registration and the store is untouched. -/
theorem register_full_event_witness :
    register idEnc db0 1 5 = (.eventFull, db0) :=
  register_full_event idEnc db0 1 5 ev5 (by decide) (by decide) (by decide)

/-- C7: a successful unregister deletes exactly one Registration for the
pair and, when the event exists, stores its counter as
`currentParticipants - 1` (natural subtraction: no change when the counter
is already 0); an unregister call for a pair with no Registration returns
the not-found failure and changes no state. -/
theorem unregister_spec (db : DB) (u e : Nat) :
    (findOneReg db u e = none → unregister db u e = (.notFound, db)) ∧
    (∀ r ev, findOneReg db u e = some r → findEvent db e = some ev →
      (unregister db u e).1 = .success ∧
      (unregister db u e).2.registrations = delReg db u e ∧
      pairCount (unregister db u e).2.registrations u e + 1 =
        pairCount db.registrations u e ∧
      findEvent (unregister db u e).2 e =
        some ({ ev with currentParticipants := ev.currentParticipants - 1 })) := by
  constructor
  · exact fun h => unregister_notFound h
  · intro r ev hfr hev
    have hfod : (findOneAndDelete (fun x => x.userId == u && x.eventId == e)
        db.registrations).1 = some r := by
      rw [findOneReg_eq_fod]; exact hfr
    have hpred := fod_pred hfod
    have hcnt := fod_countP (fun x => x.userId == u && x.eventId == e) hfod
    simp only [hpred, if_pos] at hcnt
    by_cases hpos : 0 < ev.currentParticipants
    · rw [unregister_success_dec hfr hev hpos]
      refine ⟨rfl, rfl, ?_, ?_⟩
      · show pairCount (delReg db u e) u e + 1 = pairCount db.registrations u e
        simp only [pairCount, delReg]
        omega
      · have hdoc : (({ ev with currentParticipants :=
            ev.currentParticipants - 1 }).id == e) = true := by
          have := List.find?_some hev
          simpa using this
        exact find?_saveEvent hdoc hev
    · rw [unregister_success_zero hfr hev hpos]
      refine ⟨rfl, rfl, ?_, ?_⟩
      · show pairCount (delReg db u e) u e + 1 = pairCount db.registrations u e
        simp only [pairCount, delReg]
        omega
      · show findEvent ({ db with registrations := delReg db u e }) e = _
        have hz : ev.currentParticipants - 1 = ev.currentParticipants := by omega
        simp only [findEvent]
        rw [show db.events.find? (fun ev => ev.id == e) = some ev from hev, hz]

/-- Witness for C7: after one registration, unregistering an absent pair is
a not-found no-op and unregistering the present pair succeeds. -/
theorem unregister_spec_witness :
    unregister (register idEnc db0 1 4).2 2 4 =
      (.notFound, (register idEnc db0 1 4).2) ∧
    (unregister (register idEnc db0 1 4).2 1 4).1 = .success ∧
    findEvent (unregister (register idEnc db0 1 4).2 1 4).2 4 =
      some ⟨4, "Hackathon", 5, 0⟩ :=
  ⟨(unregister_spec (register idEnc db0 1 4).2 2 4).1 (by decide),
   ((unregister_spec (register idEnc db0 1 4).2 1 4).2
      (mintedReg idEnc db0 1 4 us1 ev4) ⟨4, "Hackathon", 5, 1⟩
      (by decide) (by decide)).1,
   ((unregister_spec (register idEnc db0 1 4).2 1 4).2
      (mintedReg idEnc db0 1 4 us1 ev4) ⟨4, "Hackathon", 5, 1⟩
      (by decide) (by decide)).2.2.2⟩

/-- C10: the already-registered check runs first — a pair with an existing
Registration gets AlreadyRegistered no matter whether the event exists, is
full, or the user exists — and every rejection outcome leaves the store
unchanged. -/
theorem register_duplicate_priority (enc : String → String) (db : DB)
    (u e : Nat) :
    (∀ r, findOneReg db u e = some r →
      register enc db u e = (.alreadyRegistered, db)) ∧
    ((register enc db u e).1.isOk = false → (register enc db u e).2 = db) := by
  constructor
  · exact fun r h => register_already h
  · intro hnot
    cases hfr : findOneReg db u e with
    | some r => rw [register_already hfr]
    | none =>
      cases hev : findEvent db e with
      | none => rw [register_noEvent hfr hev]
      | some ev =>
        by_cases hcap : ev.maxParticipants ≤ ev.currentParticipants
        · rw [register_isFull hfr hev hcap]
        · cases hus : findUser db u with
          | none => rw [register_noUser hfr hev hcap hus]
          | some us =>
            rw [register_success hfr hev hcap hus] at hnot
            simp [RegisterResult.isOk] at hnot

/-- Witness for C10: a store holding a Registration for pair `(1, 4)` but
with no events and no users at all still answers AlreadyRegistered, and a
rejected call (full event) leaves the store unchanged. -/
theorem register_duplicate_priority_witness :
    register idEnc
      ⟨[], [], [mintedReg idEnc db0 1 4 us1 ev4], 12, 0⟩ 1 4 =
      (.alreadyRegistered, ⟨[], [], [mintedReg idEnc db0 1 4 us1 ev4], 12, 0⟩) ∧
    (register idEnc db0 1 5).2 = db0 :=
  ⟨(register_duplicate_priority idEnc
      ⟨[], [], [mintedReg idEnc db0 1 4 us1 ev4], 12, 0⟩ 1 4).1
      (mintedReg idEnc db0 1 4 us1 ev4) (by decide),
   (register_duplicate_priority idEnc db0 1 5).2 (by decide)⟩

/-- C1 (counterexample): at a concrete successful registration the stored
token is the QR encoding of a JSON payload whose field list is
`registrationId, userId, eventId, userEmail, userName, eventTitle,
registeredAt` — not `registrationId, userId, eventId, issuedAt` — so the
minted payload does not contain exactly the four claimed fields (there is a
`userEmail` field and no `issuedAt` field), and no HMAC signature is
computed anywhere in the handler. -/
theorem token_claimed_format_counterexample :
    (register idEnc db0 1 4).1 = .ok (mintedReg idEnc db0 1 4 us1 ev4) ∧
    (mintedReg idEnc db0 1 4 us1 ev4).qrCode =
      jsonStringify (qrData db0.nextId 1 4 us1 ev4 db0.clock) ∧
    (qrData db0.nextId 1 4 us1 ev4 db0.clock).map Prod.fst =
      ["registrationId", "userId", "eventId", "userEmail", "userName",
       "eventTitle", "registeredAt"] ∧
    (qrData db0.nextId 1 4 us1 ev4 db0.clock).map Prod.fst ≠
      ["registrationId", "userId", "eventId", "issuedAt"] ∧
    fieldVal (qrData db0.nextId 1 4 us1 ev4 db0.clock) "issuedAt" = none ∧
    fieldVal (qrData db0.nextId 1 4 us1 ev4 db0.clock) "userEmail" =
      some "alice@college.edu" := by
  decide

/-- C1 (amended): every token produced by a successful register call is the
external QR encoder applied to the JSON string of a payload holding exactly
the seven fields `registrationId, userId, eventId, userEmail, userName,
eventTitle, registeredAt`, with no signature component. -/
theorem token_format_amended (enc : String → String) (db : DB) (u e : Nat)
    (reg : Registration) (db' : DB)
    (h : register enc db u e = (.ok reg, db')) :
    ∃ us ev, findUser db u = some us ∧ findEvent db e = some ev ∧
      reg.qrCode = enc (jsonStringify (qrData db.nextId u e us ev db.clock)) ∧
      (qrData db.nextId u e us ev db.clock).map Prod.fst =
        ["registrationId", "userId", "eventId", "userEmail", "userName",
         "eventTitle", "registeredAt"] := by
  obtain ⟨us, ev, hfr, hev, hcap, hus, hreg, hdb⟩ := register_ok_inv h
  subst hreg
  exact ⟨us, ev, hus, hev, rfl, rfl⟩

/-- Witness for the amended C1 at a concrete registration. -/
theorem token_format_amended_witness :
    ∃ us ev, findUser db0 1 = some us ∧ findEvent db0 4 = some ev ∧
      (mintedReg idEnc db0 1 4 us1 ev4).qrCode =
        idEnc (jsonStringify (qrData db0.nextId 1 4 us ev db0.clock)) ∧
      (qrData db0.nextId 1 4 us ev db0.clock).map Prod.fst =
        ["registrationId", "userId", "eventId", "userEmail", "userName",
         "eventTitle", "registeredAt"] :=
  token_format_amended idEnc db0 1 4 (mintedReg idEnc db0 1 4 us1 ev4)
    (registerSuccessDB idEnc db0 1 4 us1 ev4) rfl

/-- C2 (code bug): at a concrete successful registration, the
`registrationId` embedded in the minted payload is the string of a freshly
generated ObjectId (`"10"`), while the created Registration is saved under
a different id (`11`); the payload's `userId` and `eventId` do match.  The
embedded id matches no stored document, so decoding the token can never
resolve the Registration it was minted for. -/
theorem token_registration_id_mismatch :
    (register idEnc db0 1 4).1 = .ok (mintedReg idEnc db0 1 4 us1 ev4) ∧
    fieldVal (qrData db0.nextId 1 4 us1 ev4 db0.clock) "registrationId" =
      some "10" ∧
    (mintedReg idEnc db0 1 4 us1 ev4).id = 11 ∧
    toString (mintedReg idEnc db0 1 4 us1 ev4).id ≠ "10" ∧
    fieldVal (qrData db0.nextId 1 4 us1 ev4 db0.clock) "userId" =
      some (toString (mintedReg idEnc db0 1 4 us1 ev4).userId) ∧
    fieldVal (qrData db0.nextId 1 4 us1 ev4 db0.clock) "eventId" =
      some (toString (mintedReg idEnc db0 1 4 us1 ev4).eventId) := by
  decide

/-- C8 (counterexample): under the strictly alternating interleaving of two
register calls against the one-slot event, both calls finish with a success
result and the event ends with two registrations while
`maxParticipants = 1` — an outcome impossible under an atomic conditional
increment, and indeed different from both serial orders, each of which
rejects its second call with EventFull. -/
theorem register_not_atomic_counterexample :
    phaseOk (runRace idEnc 1 3 2 3 db0 alternate10).pa = true ∧
    phaseOk (runRace idEnc 1 3 2 3 db0 alternate10).pb = true ∧
    regCount (runRace idEnc 1 3 2 3 db0 alternate10).db.registrations 3 = 2 ∧
    findEvent (runRace idEnc 1 3 2 3 db0 alternate10).db 3 =
      some ⟨3, "TechTalk", 1, 1⟩ ∧
    (register idEnc db0 1 3).1.isOk = true ∧
    (register idEnc (register idEnc db0 1 3).2 2 3).1 = .eventFull ∧
    (register idEnc db0 2 3).1.isOk = true ∧
    (register idEnc (register idEnc db0 2 3).2 1 3).1 = .eventFull := by
  decide

/-- C8 (amended): the counter update of the register handler is a read
(`findById` plus capacity check) followed later by a separate write
(`save`), so whenever an event has at least one free slot, the alternating
interleaving of two register calls lets both pass the capacity check and
both succeed: two registrations are added while the stored counter rises by
only one — the lost update keeps the counter at or below the maximum but
over-enrolls the event past its capacity when only one slot was free. -/
theorem register_read_then_write_race (enc : String → String) (db : DB)
    (u1 u2 e : Nat) (ev : Event) (w1 w2 : User)
    (hfr1 : findOneReg db u1 e = none) (hfr2 : findOneReg db u2 e = none)
    (hev : findEvent db e = some ev)
    (hcap : ev.currentParticipants < ev.maxParticipants)
    (hu1 : findUser db u1 = some w1) (hu2 : findUser db u2 = some w2) :
    phaseOk (runRace enc u1 e u2 e db alternate10).pa = true ∧
    phaseOk (runRace enc u1 e u2 e db alternate10).pb = true ∧
    regCount (runRace enc u1 e u2 e db alternate10).db.registrations e =
      regCount db.registrations e + 2 ∧
    findEvent (runRace enc u1 e u2 e db alternate10).db e =
      some ({ ev with currentParticipants := ev.currentParticipants + 1 }) := by
  have hcap' : ¬ ev.maxParticipants ≤ ev.currentParticipants :=
    Nat.not_le.mpr hcap
  have s1 : raceStep enc u1 e u2 e ⟨.start, .start, db⟩ true =
      ⟨.dupChecked, .start, db⟩ := by
    simp [raceStep, regStep, hfr1]
  have s2 : raceStep enc u1 e u2 e ⟨.dupChecked, .start, db⟩ false =
      ⟨.dupChecked, .dupChecked, db⟩ := by
    simp [raceStep, regStep, hfr2]
  have s3 : raceStep enc u1 e u2 e ⟨.dupChecked, .dupChecked, db⟩ true =
      ⟨.gotEvent ev, .dupChecked, db⟩ := by
    simp [raceStep, regStep, hev, hcap']
  have s4 : raceStep enc u1 e u2 e ⟨.gotEvent ev, .dupChecked, db⟩ false =
      ⟨.gotEvent ev, .gotEvent ev, db⟩ := by
    simp [raceStep, regStep, hev, hcap']
  have s5 : raceStep enc u1 e u2 e ⟨.gotEvent ev, .gotEvent ev, db⟩ true =
      ⟨.gotUser ev w1, .gotEvent ev, db⟩ := by
    simp [raceStep, regStep, hu1]
  have s6 : raceStep enc u1 e u2 e ⟨.gotUser ev w1, .gotEvent ev, db⟩ false =
      ⟨.gotUser ev w1, .gotUser ev w2, db⟩ := by
    simp [raceStep, regStep, hu2]
  have s7 : raceStep enc u1 e u2 e ⟨.gotUser ev w1, .gotUser ev w2, db⟩ true =
      ⟨.savedReg ev (mintedReg enc db u1 e w1 ev), .gotUser ev w2,
        { db with
          registrations := db.registrations ++ [mintedReg enc db u1 e w1 ev],
          nextId := db.nextId + 2 }⟩ := by
    simp [raceStep, regStep]
  have s8 : raceStep enc u1 e u2 e
      ⟨.savedReg ev (mintedReg enc db u1 e w1 ev), .gotUser ev w2,
        { db with
          registrations := db.registrations ++ [mintedReg enc db u1 e w1 ev],
          nextId := db.nextId + 2 }⟩ false =
      ⟨.savedReg ev (mintedReg enc db u1 e w1 ev),
        .savedReg ev (mintedReg enc
          { db with
            registrations := db.registrations ++ [mintedReg enc db u1 e w1 ev],
            nextId := db.nextId + 2 } u2 e w2 ev),
        { db with
          registrations := db.registrations ++ [mintedReg enc db u1 e w1 ev] ++
            [mintedReg enc
              { db with
                registrations := db.registrations ++
                  [mintedReg enc db u1 e w1 ev],
                nextId := db.nextId + 2 } u2 e w2 ev],
          nextId := db.nextId + 2 + 2 }⟩ := by
    simp [raceStep, regStep]
  have s9 : raceStep enc u1 e u2 e
      ⟨.savedReg ev (mintedReg enc db u1 e w1 ev),
        .savedReg ev (mintedReg enc
          { db with
            registrations := db.registrations ++ [mintedReg enc db u1 e w1 ev],
            nextId := db.nextId + 2 } u2 e w2 ev),
        { db with
          registrations := db.registrations ++ [mintedReg enc db u1 e w1 ev] ++
            [mintedReg enc
              { db with
                registrations := db.registrations ++
                  [mintedReg enc db u1 e w1 ev],
                nextId := db.nextId + 2 } u2 e w2 ev],
          nextId := db.nextId + 2 + 2 }⟩ true =
      ⟨.finished (.ok (mintedReg enc db u1 e w1 ev)),
        .savedReg ev (mintedReg enc
          { db with
            registrations := db.registrations ++ [mintedReg enc db u1 e w1 ev],
            nextId := db.nextId + 2 } u2 e w2 ev),
        { db with
          registrations := db.registrations ++ [mintedReg enc db u1 e w1 ev] ++
            [mintedReg enc
              { db with
                registrations := db.registrations ++
                  [mintedReg enc db u1 e w1 ev],
                nextId := db.nextId + 2 } u2 e w2 ev],
          nextId := db.nextId + 2 + 2,
          events := saveEvent db.events e
            ({ ev with currentParticipants := ev.currentParticipants + 1 }) }⟩ := by
    simp [raceStep, regStep]
  have s10 : raceStep enc u1 e u2 e
      ⟨.finished (.ok (mintedReg enc db u1 e w1 ev)),
        .savedReg ev (mintedReg enc
          { db with
            registrations := db.registrations ++ [mintedReg enc db u1 e w1 ev],
            nextId := db.nextId + 2 } u2 e w2 ev),
        { db with
          registrations := db.registrations ++ [mintedReg enc db u1 e w1 ev] ++
            [mintedReg enc
              { db with
                registrations := db.registrations ++
                  [mintedReg enc db u1 e w1 ev],
                nextId := db.nextId + 2 } u2 e w2 ev],
          nextId := db.nextId + 2 + 2,
          events := saveEvent db.events e
            ({ ev with currentParticipants := ev.currentParticipants + 1 }) }⟩
        false =
      ⟨.finished (.ok (mintedReg enc db u1 e w1 ev)),
        .finished (.ok (mintedReg enc
          { db with
            registrations := db.registrations ++ [mintedReg enc db u1 e w1 ev],
            nextId := db.nextId + 2 } u2 e w2 ev)),
        { db with
          registrations := db.registrations ++ [mintedReg enc db u1 e w1 ev] ++
            [mintedReg enc
              { db with
                registrations := db.registrations ++
                  [mintedReg enc db u1 e w1 ev],
                nextId := db.nextId + 2 } u2 e w2 ev],
          nextId := db.nextId + 2 + 2,
          events := saveEvent (saveEvent db.events e
              ({ ev with currentParticipants := ev.currentParticipants + 1 })) e
            ({ ev with currentParticipants := ev.currentParticipants + 1 }) }⟩ := by
    simp [raceStep, regStep]
  have hrun : runRace enc u1 e u2 e db alternate10 =
      ⟨.finished (.ok (mintedReg enc db u1 e w1 ev)),
        .finished (.ok (mintedReg enc
          { db with
            registrations := db.registrations ++ [mintedReg enc db u1 e w1 ev],
            nextId := db.nextId + 2 } u2 e w2 ev)),
        { db with
          registrations := db.registrations ++ [mintedReg enc db u1 e w1 ev] ++
            [mintedReg enc
              { db with
                registrations := db.registrations ++
                  [mintedReg enc db u1 e w1 ev],
                nextId := db.nextId + 2 } u2 e w2 ev],
          nextId := db.nextId + 2 + 2,
          events := saveEvent (saveEvent db.events e
              ({ ev with currentParticipants := ev.currentParticipants + 1 })) e
            ({ ev with currentParticipants := ev.currentParticipants + 1 }) }⟩ := by
    rw [runRace, alternate10]
    rw [List.foldl_cons, s1, List.foldl_cons, s2, List.foldl_cons, s3,
      List.foldl_cons, s4, List.foldl_cons, s5, List.foldl_cons, s6,
      List.foldl_cons, s7, List.foldl_cons, s8, List.foldl_cons, s9,
      List.foldl_cons, s10, List.foldl_nil]
  rw [hrun]
  have hdoc : ((({ ev with currentParticipants :=
      ev.currentParticipants + 1 }) : Event).id == e) = true := by
    have := List.find?_some hev
    simpa using this
  refine ⟨rfl, rfl, ?_, ?_⟩
  · show regCount (db.registrations ++ [mintedReg enc db u1 e w1 ev] ++ [_]) e = _
    simp [regCount, List.countP_append, List.countP_cons, mintedReg]
  · show findEvent _ e = _
    simp only [findEvent]
    exact find?_saveEvent hdoc (find?_saveEvent hdoc hev)

/-- Witness for the amended C8 at the concrete one-slot event: both raced
calls succeed, the registration count rises by two, the counter by one. -/
theorem register_read_then_write_race_witness :
    phaseOk (runRace idEnc 1 3 2 3 db0 alternate10).pa = true ∧
    phaseOk (runRace idEnc 1 3 2 3 db0 alternate10).pb = true ∧
    regCount (runRace idEnc 1 3 2 3 db0 alternate10).db.registrations 3 =
      regCount db0.registrations 3 + 2 ∧
    findEvent (runRace idEnc 1 3 2 3 db0 alternate10).db 3 =
      some ({ ev3 with currentParticipants := ev3.currentParticipants + 1 }) :=
  register_read_then_write_race idEnc db0 1 2 3 ev3 us1 us2
    (by decide) (by decide) (by decide) (by decide) (by decide) (by decide)

/-- C9 (counterexample): when the backend answers with an ok status but a
body that `JSON.parse` rejects, `validateQRCode` hands the caller the raw
`\x7b _rawText \x7d` wrapper unchanged — a result that carries neither a
`valid: false` field nor a `reason`, although a malformed body is a failed
scan. -/
theorem validateQRCode_counterexample :
    validateQRCode (.response true (.malformed "garbage")) =
      .jobj [("_rawText", .jstr "garbage")] ∧
    getField (validateQRCode (.response true (.malformed "garbage")))
      "valid" = none ∧
    getField (validateQRCode (.response true (.malformed "garbage")))
      "reason" = none :=
  ⟨rfl, rfl, rfl⟩

/-- C9 (amended): `validateQRCode` never throws — every outcome, including
the thrown `data.valid` access on a null body, is converted by the
`try`/`catch` into a returned value.  On a network failure it returns the
structured network-error object; on every non-ok status it returns an
object with `valid: false` and a truthy reason; but on an ok status it
returns the parsed body as is (or the catch result), which for malformed or
arbitrary bodies may lack both `valid` and `reason`. -/
theorem validateQRCode_amended (o : FetchOutcome) :
    (o = .networkError → validateQRCode o = networkErrorResult) ∧
    (∀ body, o = .response false body →
      getField (validateQRCode o) "valid" = some (.jbool false) ∧
      ∃ rsn, getField (validateQRCode o) "reason" = some rsn ∧
        jsTruthy rsn = true) ∧
    (∀ body, o = .response true body →
      validateQRCode o = parseResponse body ∨
      validateQRCode o = networkErrorResult) := by
  refine ⟨?_, ?_, ?_⟩
  · rintro rfl
    rfl
  · rintro body rfl
    refine ⟨rfl, reasonOrDefault (parseResponse body), rfl, ?_⟩
    unfold reasonOrDefault
    cases hgf : getField (parseResponse body) "reason" with
    | none => rfl
    | some v =>
      dsimp only
      by_cases hv : jsTruthy v = true
      · rw [if_pos hv]
        exact hv
      · rw [if_neg hv]
        rfl
  · rintro body rfl
    cases hd : parseResponse body with
    | jnull =>
      right
      simp [validateQRCode, validateQRCodeBody, hd]
    | jbool b =>
      left
      simp [validateQRCode, validateQRCodeBody, hd]
    | jnum n =>
      left
      simp [validateQRCode, validateQRCodeBody, hd]
    | jstr s =>
      left
      simp [validateQRCode, validateQRCodeBody, hd]
    | jobj fields =>
      left
      simp [validateQRCode, validateQRCodeBody, hd]

/-- Witness for the amended C9 at concrete outcomes: a network failure, a
403 with an empty body, and an ok response with a JSON body. -/
theorem validateQRCode_amended_witness :
    validateQRCode .networkError = networkErrorResult ∧
    getField (validateQRCode (.response false .empty)) "valid" =
      some (.jbool false) ∧
    (validateQRCode (.response true (.json (.jbool true))) =
      parseResponse (.json (.jbool true)) ∨
     validateQRCode (.response true (.json (.jbool true))) =
      networkErrorResult) :=
  ⟨(validateQRCode_amended .networkError).1 rfl,
   ((validateQRCode_amended (.response false .empty)).2.1 .empty rfl).1,
   (validateQRCode_amended (.response true (.json (.jbool true)))).2.2
     (.json (.jbool true)) rfl⟩

end EventHub
